import Mathlib

/-!
Verification of the Evo-AI evolutionary-campaign backend.

This file gives a shallow embedding, in Lean, of the parts of the backend
that the checked properties talk about: the variant store and its
repository operations, lineage retrieval, the selection-policy agent, the
variant generator batch, the scorer pipeline, the tool registry and the
traced agent runner.  Identifiers are modelled as natural numbers,
timestamps as natural numbers, JSON blobs as strings, and Python float
literals as exact rationals.  Database sessions are modelled by passing
the store explicitly; a Python exception is an `Except.error`.
-/

/-- A row of the variants table, mirroring `VariantDB` / the `Variant`
domain model (`domain/models/variant.py`, `infrastructure/database/models.py`).
`contentHash` is the stored hash column (computed as sha256 of the content
at construction time; the hash function itself is opaque here). -/
structure Variant where
  id : Nat
  roundId : Nat
  parentId : Option Nat
  generation : Nat
  content : String
  contentHash : String
  mutationType : Option String
  mutationMetadata : String
  isSelected : Bool
  createdAt : Nat
  updatedAt : Nat
  deletedAt : Option Nat
deriving Repr, DecidableEq

/-- The variant store: the rows of the variants table, in insertion order. -/
abbrev VariantStore := List Variant

/-- `PostgresVariantRepository.create` (postgres_variant_repo.py, lines 22-39):
builds a `VariantDB` row from the entity field by field and adds it to the
session.  The source performs no validation of any kind on this path — in
particular no lineage check — and cannot raise a domain error, which the
total return type records. -/
def PostgresVariantRepository.create (store : VariantStore) (entity : Variant) : VariantStore :=
  store ++ [entity]

/-- `PostgresVariantRepository.update` (postgres_variant_repo.py, lines 70-86):
looks the row up by `entity.id`; raises `ValueError` when absent; otherwise
overwrites exactly `is_selected`, `mutation_metadata` and `updated_at`
(the latter with the current time, passed here as `now`) and leaves every
other column as it was. -/
def PostgresVariantRepository.update (store : VariantStore) (entity : Variant) (now : Nat) :
    Except String VariantStore :=
  if store.any (fun r => r.id == entity.id) then
    Except.ok (store.map (fun r =>
      if r.id == entity.id then
        { r with isSelected := entity.isSelected,
                 mutationMetadata := entity.mutationMetadata,
                 updatedAt := now }
      else r))
  else
    Except.error "Variant not found"

/-- The projection of a variant row onto the columns that
`PostgresVariantRepository.update` is never supposed to touch. -/
def frameFields (v : Variant) : Nat × Nat × Option Nat × Nat × String × String × Nat :=
  (v.id, v.roundId, v.parentId, v.generation, v.content, v.contentHash, v.createdAt)

/-- The ancestry chain of a variant, self first: the rows collected by the
recursive CTE of `PostgresVariantRepository.get_lineage` before ordering
(base case: the row with the requested id; step: the row whose id is the
previous row's `parent_id`).  `fuel` bounds the recursion the way the CTE
is bounded by the finiteness of an acyclic table. -/
def lineageChain (store : VariantStore) : Nat → Nat → List Variant
  | 0, _ => []
  | fuel + 1, vid =>
    match store.find? (fun v => v.id == vid) with
    | none => []
    | some v =>
      match v.parentId with
      | none => [v]
      | some p => v :: lineageChain store fuel p

/-- Ordering used by the final `ORDER BY generation ASC` of the lineage CTE. -/
def genLE (a b : Variant) : Prop := a.generation ≤ b.generation

instance : DecidableRel genLE := fun a b => inferInstanceAs (Decidable (a.generation ≤ b.generation))

/-- `PostgresVariantRepository.get_lineage` (postgres_variant_repo.py, lines
156-181): the recursive CTE collects the chain from the variant up to its
founder and the surrounding SELECT orders the result by `generation`
ascending. -/
def PostgresVariantRepository.get_lineage (store : VariantStore) (variantId : Nat) : List Variant :=
  List.insertionSort genLE (lineageChain store (store.length + 1) variantId)

/-- The dictionary returned by `LineageTool.get_full_lineage`. -/
structure LineageSummary where
  lineage : List Variant
  generations : Nat
  founder : Option Variant
deriving Repr, DecidableEq

/-- `LineageTool.get_full_lineage` (agents/tools/lineage.py, lines 31-95):
returns the repository lineage as is, `generations` as its length, and
`founder` as the LAST element of that list. -/
def LineageTool.get_full_lineage (store : VariantStore) (variantId : Nat) : LineageSummary :=
  let lin := PostgresVariantRepository.get_lineage store variantId
  ⟨lin, lin.length, lin.getLast?⟩

/-- The lineage invariant stated by the spec for a store: every variant is
either a founder (generation 0 with no parent) or has a parent in the
store whose generation is one less. -/
def lineageInvariant (store : VariantStore) : Prop :=
  ∀ v ∈ store,
    (v.generation = 0 ∧ v.parentId = none) ∨
    ∃ p ∈ store, v.parentId = some p.id ∧ v.generation = p.generation + 1

instance (store : VariantStore) : Decidable (lineageInvariant store) :=
  inferInstanceAs (Decidable (∀ v ∈ store, _ ∨ _))

/-- Multi-objective weights built by `PolicyAgent._build_objective_weights`
and stored in the policy config under `objective_weights`. -/
structure ObjectiveWeights where
  evaluationScore : Rat
  novelty : Rat
  diversity : Rat
  innovation : Rat
deriving Repr, DecidableEq

/-- `PolicyAgent._build_objective_weights` (policy_maker.py, lines 281-306):
pressure-bucketed weights, normalized by their sum (with the Python
`or 1.0` guard against a zero total). -/
def PolicyAgent.build_objective_weights (selectionPressure : Rat) : ObjectiveWeights :=
  let w : ObjectiveWeights :=
    if selectionPressure < 4/10 then ⟨5/10, 25/100, 2/10, 5/100⟩
    else if selectionPressure < 7/10 then ⟨65/100, 15/100, 15/100, 5/100⟩
    else ⟨8/10, 1/10, 7/100, 3/100⟩
  let total0 := w.evaluationScore + w.novelty + w.diversity + w.innovation
  let total := if total0 = 0 then 1 else total0
  ⟨w.evaluationScore / total, w.novelty / total, w.diversity / total, w.innovation / total⟩

/-- One entry of the evaluations payload consumed by
`PolicyAgent._rank_variants`: the fields it reads from each evaluation
dict (variant id, status, score, and the `innovation` entry of
`result_data.criteria_scores` when present). -/
structure EvalRow where
  variantId : Nat
  status : String
  score : Option Rat
  innovationScore : Option Rat
deriving Repr, DecidableEq

/-- A ranked entry produced by `PolicyAgent._rank_variants`. -/
structure RankedVariant where
  variantId : Nat
  parentId : Option Nat
  evaluationScore : Rat
  novelty : Rat
  diversity : Rat
  innovation : Rat
  compositeScore : Rat
deriving Repr, DecidableEq

/-- The selection-policy config consumed by `PolicyAgent.apply_policy`:
`selection_count`, `parameters.min_lineages`, `selection_pressure` and the
stored `objective_weights` (absent when an older policy row lacks them, in
which case ranking rebuilds them from the pressure). -/
structure PolicyConfig where
  selectionCount : Nat
  minLineages : Nat
  selectionPressure : Rat
  objectiveWeights : Option ObjectiveWeights
deriving Repr, DecidableEq

/-- Scores contributed to `scores_by_variant` for one variant: completed
evaluations of that variant carrying a score, in payload order. -/
def scoresFor (evals : List EvalRow) (vid : Nat) : List Rat :=
  (evals.filter (fun e => e.status == "completed" && e.variantId == vid)).filterMap EvalRow.score

/-- Innovation entries contributed to `innovation_by_variant` for one
variant: the loop reaches the criteria lookup only for completed rows that
carry a score. -/
def innovationsFor (evals : List EvalRow) (vid : Nat) : List Rat :=
  (evals.filter (fun e =>
    e.status == "completed" && e.variantId == vid && e.score.isSome)).filterMap
    EvalRow.innovationScore

/-- Occurrences of a content hash in the round, as counted by the
`content_counts` Counter (only truthy hashes are counted). -/
def contentCount (variants : List Variant) (h : String) : Nat :=
  (variants.filter (fun v => v.contentHash == h && v.contentHash != "")).length

/-- Occurrences of a parent key in the round, as counted by the
`parent_counts` Counter; a missing parent is keyed under the synthetic
root, which `Option.none` plays here. -/
def parentCount (variants : List Variant) (p : Option Nat) : Nat :=
  (variants.filter (fun v => v.parentId == p)).length

/-- The per-variant body of `PolicyAgent._rank_variants` (policy_maker.py,
lines 347-379): the four axes and their weighted composite. -/
def mkRanked (variants : List Variant) (evals : List EvalRow) (w : ObjectiveWeights)
    (v : Variant) : RankedVariant :=
  let evalScores := scoresFor evals v.id
  let evaluationScore := if evalScores.isEmpty then 0 else evalScores.sum / evalScores.length
  let innovScores := innovationsFor evals v.id
  let innovation := if innovScores.isEmpty then evaluationScore
    else innovScores.sum / innovScores.length
  let novelty := if v.contentHash != "" then 1 / (contentCount variants v.contentHash : Rat)
    else 5/10
  let diversity := 1 / (parentCount variants v.parentId : Rat)
  let composite := evaluationScore * w.evaluationScore + novelty * w.novelty
    + diversity * w.diversity + innovation * w.innovation
  ⟨v.id, v.parentId, evaluationScore, novelty, diversity, innovation, composite⟩

/-- Ordering used by the descending sort on `composite_score`. -/
def rankedGE (a b : RankedVariant) : Prop := b.compositeScore ≤ a.compositeScore

instance : DecidableRel rankedGE :=
  fun a b => inferInstanceAs (Decidable (b.compositeScore ≤ a.compositeScore))

/-- `PolicyAgent._rank_variants` (policy_maker.py, lines 308-382): build one
entry per variant of the round and sort by composite score, descending
(Python uses a stable sort; so does insertion sort). -/
def PolicyAgent.rank_variants (variants : List Variant) (evals : List EvalRow)
    (cfg : PolicyConfig) : List RankedVariant :=
  List.insertionSort rankedGE (variants.map (mkRanked variants evals
    (cfg.objectiveWeights.getD (PolicyAgent.build_objective_weights cfg.selectionPressure))))

/-- First loop of `PolicyAgent._select_with_diversity` (policy_maker.py,
lines 395-405): walk the ranked list, accept only candidates whose parent
key is new, stop at the pick quota or once `min_lineages` distinct parents
are represented.  Returns the accepted ids and the seen parent keys. -/
def firstPass (selectCnt minLineages : Nat) :
    List RankedVariant → List Nat → List (Option Nat) → List Nat × List (Option Nat)
  | [], sel, par => (sel, par)
  | c :: rest, sel, par =>
    if selectCnt ≤ sel.length then (sel, par)
    else if c.parentId ∈ par then firstPass selectCnt minLineages rest sel par
    else
      if minLineages ≤ par.length + 1 then (sel ++ [c.variantId], par ++ [c.parentId])
      else firstPass selectCnt minLineages rest (sel ++ [c.variantId]) (par ++ [c.parentId])

/-- Second loop of `PolicyAgent._select_with_diversity` (policy_maker.py,
lines 407-414): fill the remaining quota in ranked order, skipping ids
already selected. -/
def secondPass (selectCnt : Nat) : List RankedVariant → List Nat → List Nat
  | [], sel => sel
  | c :: rest, sel =>
    if selectCnt ≤ sel.length then sel
    else if c.variantId ∈ sel then secondPass selectCnt rest sel
    else secondPass selectCnt rest (sel ++ [c.variantId])

/-- `PolicyAgent._select_with_diversity` (policy_maker.py, lines 384-416):
the diversity-guard pass followed by the quota-filling pass. -/
def PolicyAgent.select_with_diversity (ranked : List RankedVariant)
    (selectCnt minLineages : Nat) : List Nat :=
  secondPass selectCnt ranked (firstPass selectCnt minLineages ranked [] []).1

/-- The marking loop of `PolicyAgent.apply_policy` (policy_maker.py, lines
493-500): each selected variant is loaded and saved back through
`PostgresVariantRepository.update`, which sets `is_selected` and stamps
`updated_at`. -/
def markSelected (ids : List Nat) (now : Nat) (variants : VariantStore) : VariantStore :=
  variants.map (fun v =>
    if v.id ∈ ids then { v with isSelected := true, updatedAt := now } else v)

/-- The id-selection part of `PolicyAgent.apply_policy` (policy_maker.py,
lines 480-490): rank the variants of the round against their evaluations,
cap the pick quota `selection_count` by the number of ranked entries, and
run the diversity-guarded selection. -/
def PolicyAgent.apply_policy_ids (variants : VariantStore) (evals : List EvalRow)
    (cfg : PolicyConfig) : List Nat :=
  PolicyAgent.select_with_diversity (PolicyAgent.rank_variants variants evals cfg)
    (min cfg.selectionCount (PolicyAgent.rank_variants variants evals cfg).length)
    cfg.minLineages

/-- The selection-and-marking stage of `apply_policy` (policy_maker.py,
lines 480-500), given the round data: the selected ids and the round store
after the marking loop.  This code sits BELOW the round-data fetch of
`apply_policy` and is unreachable in the program (see
`PolicyAgent.apply_policy`); it is modelled to state what the source
intends to do with the round data. -/
def PolicyAgent.apply_policy_selection (variants : VariantStore) (evals : List EvalRow)
    (cfg : PolicyConfig) (now : Nat) : List Nat × VariantStore :=
  (PolicyAgent.apply_policy_ids variants evals cfg,
   markSelected (PolicyAgent.apply_policy_ids variants evals cfg) now variants)

/-- `DomainQueryTool.get_round_variants` (domain_query.py, lines 222-262):
after the round-id guard it calls `repo.get_by_round_id(rid)` — a method
`PostgresVariantRepository` does not define (the repository defines
`get_by_round`) — so Python raises `AttributeError` on every call and no
variant list is ever returned. -/
def DomainQueryTool.get_round_variants (hasRoundId : Bool) : Except String (List Variant) :=
  if !hasRoundId then
    Except.error "ValueError: round_id not provided and not in context"
  else
    Except.error "AttributeError: PostgresVariantRepository object has no attribute get_by_round_id"

/-- The `get_round_evaluations` tool call as `PolicyAgent.apply_policy`
makes it (policy_maker.py, line 482): the wrapper invokes
`EvaluationTool.get_round_evaluations(context=context)` while that
function requires the positional `round_id` argument
(evaluation.py tool, line 188-192), so Python raises `TypeError` at the
call and no evaluation payload is ever produced. -/
def EvaluationTool.get_round_evaluations_without_round_id : Except String (List EvalRow) :=
  Except.error "TypeError: get_round_evaluations missing required argument round_id"

/-- `PolicyAgent.apply_policy` (policy_maker.py, lines 448-532), full call
path: check the context round id, load the policy, then fetch the round
variants and evaluations through the domain tools.  The variants fetch
raises `AttributeError` unconditionally (see
`DomainQueryTool.get_round_variants`), so the ranking, diversity guard and
marking loop below it — `PolicyAgent.apply_policy_selection` — never run
and the store is left untouched.  Returns the outcome and the store after
the call. -/
def PolicyAgent.apply_policy (policies : List (Nat × PolicyConfig)) (policyId : Nat)
    (hasRoundId : Bool) (store : VariantStore) (now : Nat) :
    Except String (List Nat × VariantStore) × VariantStore :=
  if !hasRoundId then
    (Except.error "ValueError: round_id required", store)
  else
    match policies.find? (fun p => p.1 == policyId) with
    | none => (Except.error "ValueError: Policy not found", store)
    | some p =>
      match DomainQueryTool.get_round_variants true with
      | Except.error e => (Except.error e, store)
      | Except.ok variants =>
        match EvaluationTool.get_round_evaluations_without_round_id with
        | Except.error e => (Except.error e, store)
        | Except.ok evals =>
          let r := PolicyAgent.apply_policy_selection variants evals p.2 now
          (Except.ok r, r.2)

/-- The plan fields read by `VariantAgent.generate_batch`: mutation types,
the mutation distribution (criterion name with weight), the target variant
count and the seed for the plan RNG. -/
structure MutationPlan where
  mutationTypes : List String
  mutationDistribution : List (String × Rat)
  variantCount : Nat
  seed : Option Nat
deriving Repr, DecidableEq

/-- Mutation choice for the i-th generated child (variant_generator.py,
lines 349-358): when a distribution is present, the i-th draw of
`chooser.choices` over it — the chooser being the plan RNG seeded with
`plan.seed` (or the global RNG when no seed is set), abstracted here as the
draw function `pick`; otherwise the i-th mutation type, cycling. -/
def chooseMutation (pick : Nat → List (String × Rat) → String) (plan : MutationPlan)
    (i : Nat) : String :=
  if plan.mutationDistribution.isEmpty then
    (plan.mutationTypes.getD (i % plan.mutationTypes.length) "refactor")
  else
    pick i plan.mutationDistribution

/-- `VariantAgent.execute` (variant_generator.py, lines 100-236): after the
round-id guard (line 125) the method builds a parent lookup context with
`run_id=context.run_id` (line 142) — but `AgentContext` (base.py, lines
28-46) has no `run_id` field — so every call raises `AttributeError`
before the parent is read, the mutation dispatched, any variant row
written or any decision logged.  A successful child (parent id and
mutation type) is never produced. -/
def VariantAgent.execute_run (hasRoundId : Bool) (_parentId : Nat) (_mutationType : String) :
    Except String (Nat × String) :=
  if !hasRoundId then
    Except.error "ValueError: round_id required in context for variant generation"
  else
    Except.error "AttributeError: AgentContext object has no attribute run_id"

/-- The generation loop of `VariantAgent.generate_batch` (variant_generator.py,
lines 349-365): for each visited parent, choose the mutation and delegate
to `execute`, accumulating children; an exception from `execute`
propagates out of the loop. -/
def generateLoop (hasRoundId : Bool) (pick : Nat → List (String × Rat) → String)
    (plan : MutationPlan) : List (Nat × Nat) → List (Nat × String) →
    Except String (List (Nat × String))
  | [], acc => Except.ok acc
  | ip :: rest, acc =>
    match VariantAgent.execute_run hasRoundId ip.2 (chooseMutation pick plan ip.1) with
    | Except.error e => Except.error e
    | Except.ok child => generateLoop hasRoundId pick plan rest (acc ++ [child])

/-- `VariantAgent.generate_batch` (variant_generator.py, lines 323-374):
iterate `enumerate(parent_ids[:total_count])` where `total_count` is the
plan's `variant_count`, generating one child per visited parent — except
that `execute` raises on its first call (see `VariantAgent.execute_run`),
so any batch that visits at least one parent propagates the error with
zero children generated. -/
def VariantAgent.generate_batch (hasRoundId : Bool)
    (pick : Nat → List (String × Rat) → String)
    (parentIds : List Nat) (plan : MutationPlan) : Except String (List (Nat × String)) :=
  generateLoop hasRoundId pick plan ((parentIds.take plan.variantCount).enum) []

/-- An `agent_decisions` row, reduced to the fields the audit properties
talk about. -/
structure AgentDecisionRow where
  agentType : String
  decisionType : String
  reasoning : String
deriving Repr, DecidableEq

/-- The observable side effects of an agent run: the decision-log rows and
the per-agent success and failure counters bumped by `run_with_tracing`. -/
structure AgentState where
  decisions : List AgentDecisionRow
  successCalls : Nat
  errorCalls : Nat
deriving Repr, DecidableEq

/-- `BaseEvoAgent.run_with_tracing` (agents/base.py, lines 271-338): opens a
span, delegates to `execute`, increments the success counter and returns
the result on success; on an exception it increments the failure counter
and re-raises.  It performs no database writes of its own — in particular
it writes no decision row on either path. -/
def runWithTracing {α : Type} (exec : AgentState → Except String α × AgentState)
    (s : AgentState) : Except String α × AgentState :=
  match exec s with
  | (Except.ok a, s2) => (Except.ok a, { s2 with successCalls := s2.successCalls + 1 })
  | (Except.error e, s2) => (Except.error e, { s2 with errorCalls := s2.errorCalls + 1 })

/-- The decision-log effect of `VariantAgent.execute` (variant_generator.py,
lines 100-236): the round-id guard (line 125) aside, every call raises
`AttributeError` at line 142 — `context.run_id` on an `AgentContext` that
has no such field — BEFORE the mutation dispatch of lines 153-174 and
before any `_log_decision` call, so the state (decision log included) is
returned untouched and no mutation type ever reaches a success path. -/
def VariantAgent.executeEffect (_mutationType : String) (hasRoundId : Bool)
    (s : AgentState) : Except String Unit × AgentState :=
  if !hasRoundId then
    (Except.error "ValueError: round_id required in context for variant generation", s)
  else
    (Except.error "AttributeError: AgentContext object has no attribute run_id", s)

/-- The evaluation-config fields read by the scorer pipeline
(`ScorerAgent._estimate_execution`, `_select_evaluator`,
`_evaluate_with_llm`, `_evaluate_with_tests`).  Optional fields model the
Python `config.get` lookups with their per-call defaults; ensemble
component lists are not needed by the properties checked here and are left
out of this slice. -/
structure EvalConfig where
  criteriaWeights : Option (List (String × Rat)) := none
  maxCostUsd : Option Rat := none
  maxLatencyMs : Option Rat := none
  allowOverBudget : Bool := false
  fallbackEvaluator : Option String := none
  costPer1kTokens : Option Rat := none
  latencyBaseMs : Option Rat := none
  latencyPerTokenMs : Option Rat := none
  totalTests : Nat := 10
deriving Repr, DecidableEq

/-- A row of the evaluations table, reduced to the fields the checked
properties read. -/
structure EvaluationRow where
  id : Nat
  variantId : Nat
  evaluatorType : String
  config : EvalConfig
  status : String
  score : Option Rat
deriving Repr, DecidableEq

/-- The evaluations table together with the id generator (fresh UUIDs are
modelled by a counter). -/
structure EvalStore where
  rows : List EvaluationRow
  nextId : Nat
deriving Repr, DecidableEq

/-- The dictionary returned by `EvaluationTool.create_evaluation`; the
Python dict carries no `cached` key, so `eval_result.get("cached")` is
always falsy, which the constantly-false field records. -/
structure CreateEvalResult where
  evaluationId : Nat
  status : String
  cached : Bool
deriving Repr, DecidableEq

/-- `EvaluationTool.create_evaluation` (agents/tools/evaluation.py, lines
35-95): the tool constructs `Evaluation(variant_id=..., evaluator_type=...,
evaluation_config=..., status=PENDING, metadata=...)` — without `round_id`,
which the domain `Evaluation` model (domain/models/evaluation.py, line 31)
declares as a required field — so pydantic raises a `ValidationError`
before anything reaches the repository.  No row is ever inserted and no
evaluation id (cached or fresh) is ever minted; the store is returned
untouched.  It also performs no lookup of prior completed rows on any
path. -/
def EvaluationTool.create_evaluation (st : EvalStore) (_variantId : Nat)
    (_evaluatorType : String) (_config : EvalConfig) :
    Except String CreateEvalResult × EvalStore :=
  (Except.error "ValidationError: Evaluation round_id field required", st)

/-- The fixed criteria map of `ScorerAgent._evaluate_with_llm` (scorer.py,
lines 316-323); the `innovation` entry grows with the generation. -/
def llmCriteria (generation : Nat) : List (String × Rat) :=
  [("correctness", 4/5), ("code_quality", 3/4), ("performance", 7/10),
   ("innovation", 3/5 + (generation : Rat) * (2/100)), ("simplicity", 17/20)]

/-- The default criteria weights of `ScorerAgent._evaluate_with_llm`
(scorer.py, lines 326-332). -/
def defaultCriteriaWeights : List (String × Rat) :=
  [("correctness", 3/10), ("code_quality", 25/100), ("performance", 2/10),
   ("innovation", 15/100), ("simplicity", 1/10)]

/-- The `weights.get(k, 0)` lookup of the aggregation loop. -/
def weightFor (ws : List (String × Rat)) (k : String) : Rat :=
  match ws.find? (fun p => p.1 == k) with
  | some p => p.2
  | none => 0

/-- The aggregate score of `ScorerAgent._evaluate_with_llm` (scorer.py,
line 333): the sum over the criteria of criterion value times its weight.
No clamping is applied anywhere downstream. -/
def llmJudgeScore (generation : Nat) (weights : List (String × Rat)) : Rat :=
  ((llmCriteria generation).map (fun p => p.2 * weightFor weights p.1)).sum

/-- The result dictionary of `ScorerAgent.execute`, reduced to the fields
the checked properties read. -/
structure ScorerOutcome where
  evaluationId : Nat
  score : Rat
  cached : Bool
  blocked : Bool
  confidence : Rat
deriving Repr, DecidableEq

/-- `ScorerAgent.execute` (scorer.py, lines 103-303) over the evaluation
store: the very first effective statement after the config default and the
log line builds a variant lookup context with `run_id=context.run_id`
(lines 137-142) — but `AgentContext` (base.py, lines 28-46) has no
`run_id` field — so every call raises `AttributeError` before the budget
selection of `_select_evaluator`, before `create_evaluation`, and before
any score is computed, persisted or returned.  The store is returned
untouched. -/
def ScorerAgent.execute (st : EvalStore) (_variantId _generation _contentLen : Nat)
    (_evaluatorType : String) (_config : EvalConfig) :
    Except String ScorerOutcome × EvalStore :=
  (Except.error "AttributeError: AgentContext object has no attribute run_id", st)

/-- A semantic version, as parsed by `semver.Version` for server metadata. -/
structure SemVer where
  major : Nat
  minor : Nat
  patch : Nat
deriving Repr, DecidableEq

/-- Strict semver ordering (lexicographic on major, minor, patch). -/
def SemVer.lt (a b : SemVer) : Bool :=
  a.major < b.major ||
  (a.major == b.major && (a.minor < b.minor ||
    (a.minor == b.minor && a.patch < b.patch)))

/-- Render a semver the way `MCPServerMetadata.version` stores it. -/
def SemVer.toStr (v : SemVer) : String :=
  toString v.major ++ "." ++ toString v.minor ++ "." ++ toString v.patch

/-- A tool entry of an MCP server: whether the Python callable is an
`async def` method — the github, web and database server tools all are
(github_server.py line 73 on, web_server.py line 84 on, database_server.py
line 88 on), while the filesystem tools are plain functions — and the body
it would run if it ran. -/
structure MCPTool where
  isAsync : Bool
  fn : String → Except String String

/-- What the invocation line of `call_tool` captures as `output_data`: a
JSON-serializable value from a plain tool, or the un-awaited coroutine
object of an async tool whose body never ran. -/
inductive ToolOutput where
  | json : String → ToolOutput
  | coroutine : ToolOutput
deriving Repr, DecidableEq

/-- A registered MCP server: its metadata and its named tools. -/
structure MCPServer where
  name : String
  version : SemVer
  tools : List (String × MCPTool)

/-- The registry contents: the values of the `name@version`-keyed server
dict, in registration order (`register` refuses duplicate keys, so keys
are unique). -/
abbrev Registry := List MCPServer

/-- Python `max` with a key: scan left to right keeping the first element
whose key no later element strictly exceeds. -/
def latestServer (head : MCPServer) (rest : Registry) : MCPServer :=
  rest.foldl (fun best cand => if SemVer.lt best.version cand.version then cand else best) head

/-- `MCPRegistry.get_server` (mcp/registry.py, lines 67-114): exact
`name@version` lookup when a version is requested, otherwise the highest
version among the servers with the requested name, or nothing when no
server matches. -/
def MCPRegistry.get_server (registry : Registry) (name : String) (version : Option SemVer) :
    Option MCPServer :=
  match version with
  | some v => registry.find? (fun s => s.name == name && s.version == v)
  | none =>
    match registry.filter (fun s => s.name == name) with
    | [] => none
    | s :: rest => some (latestServer s rest)

/-- A row of the `mcp_access_logs` table (`MCPAccessLogDB`, models.py,
lines 320-345). -/
structure ToolAccessLogRow where
  traceId : Option Nat
  serverName : String
  serverVersion : String
  toolName : String
  inputParams : String
  outputData : Option ToolOutput
  status : String
  errorMessage : Option String
  durationMs : Nat
deriving Repr

/-- The invocation expression of `MCPRegistry.call_tool` (registry.py, line
195): await the tool if it has an `__await__` attribute, else call it
plainly.  A coroutine FUNCTION has no `__await__` attribute — only the
coroutine object it returns does — so the conditional always takes the
plain-call branch: a plain tool runs its body, while an async tool merely
builds a coroutine, its body never runs, and the coroutine object is
captured as the successful output. -/
def MCPRegistry.invoke_step (t : MCPTool) (params : String) : Except String ToolOutput :=
  if t.isAsync then
    Except.ok ToolOutput.coroutine
  else
    match t.fn params with
    | Except.ok out => Except.ok (ToolOutput.json out)
    | Except.error e => Except.error e

/-- `MCPRegistry._log_access` (registry.py, lines 257-295) against the
`mcp_access_logs` schema (models.py, lines 320-345): the insert commits
only when the row is storable — `trace_id` is a NOT NULL column, and the
JSON `output_data` column cannot serialize a coroutine object — otherwise
the commit raises inside the `finally` block and no row is written. -/
def MCPRegistry.log_access (traceId : Option Nat)
    (serverName serverVersion toolName params : String) (outputData : Option ToolOutput)
    (status : String) (errorMessage : Option String) (durationMs : Nat)
    (db : List ToolAccessLogRow) : Except String (List ToolAccessLogRow) :=
  match traceId with
  | none =>
    Except.error "IntegrityError: null value in column trace_id violates not-null constraint"
  | some tid =>
    match outputData with
    | some ToolOutput.coroutine =>
      Except.error "TypeError: Object of type coroutine is not JSON serializable"
    | _ =>
      Except.ok (db ++ [⟨some tid, serverName, serverVersion, toolName, params, outputData,
        status, errorMessage, durationMs⟩])

/-- The tool-execution step of `MCPRegistry.call_tool` (mcp/registry.py,
lines 186-233 with the `finally` log write of lines 235-255): capture the
invocation outcome, then write the access log — `output_data` is passed
only for a success (line 281).  When the log write itself raises (coroutine
output, null trace id), the exception escapes the `finally` block and the
log gains no row. -/
def MCPRegistry.run_tool (srv : MCPServer) (t : String × MCPTool)
    (serverName toolName params : String) (traceId : Option Nat) (durationMs : Nat)
    (db : List ToolAccessLogRow) : Except String ToolOutput × List ToolAccessLogRow :=
  match MCPRegistry.invoke_step t.2 params with
  | Except.ok out =>
    match MCPRegistry.log_access traceId serverName srv.version.toStr toolName params
        (some out) "success" none durationMs db with
    | Except.ok db2 => (Except.ok out, db2)
    | Except.error e2 => (Except.error e2, db)
  | Except.error e =>
    match MCPRegistry.log_access traceId serverName srv.version.toStr toolName params
        none "error" (some e) durationMs db with
    | Except.ok db2 => (Except.error e, db2)
    | Except.error e2 => (Except.error e2, db)

/-- The tool-lookup step of `MCPRegistry.call_tool` (mcp/registry.py, lines
176-184): a missing tool raises `ValueError`, which the `finally` block
logs with the resolved server version (when the log write itself goes
through). -/
def MCPRegistry.invoke_tool (srv : MCPServer) (serverName toolName params : String)
    (traceId : Option Nat) (durationMs : Nat) (db : List ToolAccessLogRow) :
    Except String ToolOutput × List ToolAccessLogRow :=
  match List.find? (fun x => x.1 == toolName) srv.tools with
  | none =>
    match MCPRegistry.log_access traceId serverName srv.version.toStr toolName params
        none "error" (some ("Tool not found in server: " ++ toolName)) durationMs db with
    | Except.ok db2 => (Except.error ("Tool not found in server: " ++ toolName), db2)
    | Except.error e2 => (Except.error e2, db)
  | some t => MCPRegistry.run_tool srv t serverName toolName params traceId durationMs db

/-- `MCPRegistry.call_tool` (mcp/registry.py, lines 125-255): resolve the
server, look the tool up, invoke it, and in the `finally` block attempt
the access-log write via `_log_access` — with the resolved server version
(or "unknown" when no server resolved), the outcome status, the error
message when any, and the measured duration, passed in here since
wall-clock time is outside the model.  Returns the call outcome and the
log after the call. -/
def MCPRegistry.call_tool (registry : Registry) (serverName toolName params : String)
    (version : Option SemVer) (traceId : Option Nat) (durationMs : Nat)
    (db : List ToolAccessLogRow) : Except String ToolOutput × List ToolAccessLogRow :=
  match MCPRegistry.get_server registry serverName version with
  | none =>
    match MCPRegistry.log_access traceId serverName "unknown" toolName params
        none "error" (some ("MCP server not found: " ++ serverName)) durationMs db with
    | Except.ok db2 => (Except.error ("MCP server not found: " ++ serverName), db2)
    | Except.error e2 => (Except.error e2, db)
  | some srv => MCPRegistry.invoke_tool srv serverName toolName params traceId durationMs db

/-- A generation-0 founder row, used as the concrete seed of the lineage
scenarios. -/
def lineageSeedVariant : Variant :=
  ⟨1, 10, none, 0, "def hello(): return 1", "hash-seed", none, "", false, 0, 0, none⟩

/-- A variant claiming generation 2 while pointing at the generation-0
founder: the violating creation attempt of the spec scenario. -/
def lineageBadVariant : Variant :=
  ⟨2, 10, some 1, 2, "def hello(): return 2", "hash-bad", some "refactor", "", false, 1, 1, none⟩

/-- A well-formed generation-1 child of the founder, for the lineage-order
scenario. -/
def lineageChildVariant : Variant :=
  ⟨2, 11, some 1, 1, "def hello(): return 3", "hash-child", some "refactor", "", false, 1, 1,
   none⟩

/-- Concrete store row for the repository-update frame scenario. -/
def frameStoredVariant : Variant :=
  ⟨1, 10, none, 0, "content-a", "hash-a", none, "meta-a", false, 5, 5, none⟩

/-- The entity handed to `update` in the frame scenario, with every field
changed by the caller. -/
def frameUpdatedEntity : Variant :=
  ⟨1, 99, some 3, 7, "content-z", "hash-z", some "optimize", "meta-z", true, 6, 6, none⟩

/-- The row the frame scenario expects back: only `is_selected`,
`mutation_metadata` and `updated_at` moved. -/
def frameExpectedVariant : Variant :=
  ⟨1, 10, none, 0, "content-a", "hash-a", none, "meta-z", true, 5, 42, none⟩

/-- A draw function for the plan RNG: always the first entry of the
distribution. -/
def pickHead (_draw : Nat) (dist : List (String × Rat)) : String :=
  (dist.headD ("refactor", 1)).1

/-- The round-1 plan of the seed scenario: three variants requested, one
seed parent available. -/
def seedRoundPlan : MutationPlan := ⟨["refactor"], [], 3, some 42⟩

/-- The github server read_file entry as registered: an `async def` method
(github_server.py, line 73), so its `isAsync` flag is set; the body stands
in for what the coroutine would compute if it were ever awaited. -/
def githubReadFileTool : MCPTool := ⟨true, fun _ => Except.ok "file contents"⟩

/-- A registry holding the github server at version 1.0.0 with its
read_file tool, for the access-log scenario. -/
def githubServerExample : MCPServer :=
  ⟨"github", ⟨1, 0, 0⟩, [("read_file", githubReadFileTool)]⟩

/-- The registry of the access-log scenario. -/
def registryExample : Registry := [githubServerExample]

/-- Three unselected round variants with distinct ids, for the selection
quota scenario. -/
def policyVariantsExample : VariantStore :=
  [⟨1, 10, none, 0, "a", "ha", none, "", false, 0, 0, none⟩,
   ⟨2, 10, some 1, 1, "b", "hb", some "refactor", "", false, 1, 1, none⟩,
   ⟨3, 10, some 1, 1, "c", "hc", some "optimize", "", false, 2, 2, none⟩]

/-- Selection policy config of the quota scenario: pick two, diversity
guard asking for five lineages. -/
def policyCfgExample : PolicyConfig := ⟨2, 5, 1/2, none⟩

/-- Claim C1: the variant-creation path is supposed to reject a variant
whose generation is not its parent's generation plus one with a
LineageViolation and write no row.  Evaluating the code at the violating
input shows the opposite: `PostgresVariantRepository.create` (the only
write path, and a total function — `LineageViolationError` is defined in
domain/exceptions.py but raised nowhere) appends the row claiming
generation 2 under a generation-0 parent, leaving the store in violation
of the lineage invariant. -/
theorem create_accepts_lineage_violation :
    PostgresVariantRepository.create [lineageSeedVariant] lineageBadVariant
      = [lineageSeedVariant, lineageBadVariant] ∧
    lineageInvariant [lineageSeedVariant] ∧
    ¬ lineageInvariant (PostgresVariantRepository.create [lineageSeedVariant] lineageBadVariant) :=
  ⟨rfl, by decide, by decide⟩

/-- Claim C5: the claim says `full_lineage` returns the chain with the
variant itself first and the generation-0 founder last, the reported
founder being the generation-0 ancestor.  Evaluating the code on a
two-variant chain shows the list comes back ordered by generation
ascending — founder first, self last — and the reported founder field is
the generation-1 variant itself, not its generation-0 ancestor. -/
theorem full_lineage_is_founder_first :
    (LineageTool.get_full_lineage [lineageSeedVariant, lineageChildVariant] 2).lineage
      = [lineageSeedVariant, lineageChildVariant] ∧
    (LineageTool.get_full_lineage [lineageSeedVariant, lineageChildVariant] 2).founder
      = some lineageChildVariant ∧
    lineageChildVariant.generation = 1 ∧
    lineageSeedVariant.generation = 0 := by
  refine ⟨by decide, by decide, rfl, rfl⟩

/-- Claim C3: the claim says `generate_batch` produces `variant_count`
children, assigning parents round-robin.  The code never produces any
child at all: the loop iterates over `enumerate(parent_ids[:variant_count])`
and each iteration calls `execute`, which raises `AttributeError` on
`context.run_id` (variant_generator.py, line 142) before any generation
work, so the first visit already propagates the exception — every call on
a non-empty parent slice, in particular the round-1 call with the single
seed parent and a three-variant plan, ends with zero children. -/
theorem generate_batch_raises_before_any_child :
    (∀ (pick : Nat → List (String × Rat) → String) (parentIds : List Nat)
        (plan : MutationPlan),
      VariantAgent.generate_batch true pick parentIds plan
        = if (parentIds.take plan.variantCount).isEmpty then Except.ok []
          else Except.error "AttributeError: AgentContext object has no attribute run_id") ∧
    VariantAgent.generate_batch true pickHead [1] seedRoundPlan
      = Except.error "AttributeError: AgentContext object has no attribute run_id" ∧
    seedRoundPlan.variantCount = 3 := by
  refine ⟨?_, rfl, rfl⟩
  intro pick parentIds plan
  unfold VariantAgent.generate_batch
  rcases h : parentIds.take plan.variantCount with _ | ⟨p, ps⟩ <;> rfl

/-- Claim C4: the claim says a second evaluation of the same variant with
an identical config returns the first evaluation id with cached true.
No evaluation id — cached or fresh — is ever returned: `ScorerAgent.execute`
raises `AttributeError` on `context.run_id` (scorer.py, line 140) on every
call, and even the tool it would reach, `EvaluationTool.create_evaluation`,
raises a pydantic `ValidationError` on every call because it omits the
required `round_id` field of the `Evaluation` model; neither path inserts a
row or consults prior completed rows, and the store is returned untouched. -/
theorem evaluate_never_mints_an_id :
    (∀ (st : EvalStore) (variantId generation contentLen : Nat)
        (evaluatorType : String) (config : EvalConfig),
      ScorerAgent.execute st variantId generation contentLen evaluatorType config
        = (Except.error "AttributeError: AgentContext object has no attribute run_id", st)) ∧
    (∀ (st : EvalStore) (variantId : Nat) (evaluatorType : String) (config : EvalConfig),
      EvaluationTool.create_evaluation st variantId evaluatorType config
        = (Except.error "ValidationError: Evaluation round_id field required", st)) :=
  ⟨fun _ _ _ _ _ _ => rfl, fun _ _ _ _ => rfl⟩

/-- Claim C6: the claim says every score the Scorer persists and returns
lies in the unit interval.  Two things fail.  The aggregate the scorer
would compute has no clamp anywhere: on a generation-86 variant under the
default criteria weights the llm-judge aggregate is 2001/2000 > 1.  And
no score is ever persisted or returned at all: `ScorerAgent.execute`
raises `AttributeError` on `context.run_id` (scorer.py, line 140) before
reaching any evaluator, so the evaluation store comes back untouched and
no successful outcome exists. -/
theorem llm_judge_score_exceeds_one :
    llmJudgeScore 86 defaultCriteriaWeights = 2001/2000 ∧
    (1 : Rat) < llmJudgeScore 86 defaultCriteriaWeights ∧
    (∀ (st : EvalStore) (variantId generation contentLen : Nat)
        (evaluatorType : String) (config : EvalConfig),
      (ScorerAgent.execute st variantId generation contentLen evaluatorType config).2 = st ∧
      ∀ o, (ScorerAgent.execute st variantId generation contentLen evaluatorType config).1
        ≠ Except.ok o) := by
  have hw1 : weightFor defaultCriteriaWeights "correctness" = 3/10 := rfl
  have hw2 : weightFor defaultCriteriaWeights "code_quality" = 25/100 := rfl
  have hw3 : weightFor defaultCriteriaWeights "performance" = 2/10 := rfl
  have hw4 : weightFor defaultCriteriaWeights "innovation" = 15/100 := rfl
  have hw5 : weightFor defaultCriteriaWeights "simplicity" = 1/10 := rfl
  have hscore : llmJudgeScore 86 defaultCriteriaWeights = 2001/2000 := by
    simp only [llmJudgeScore, llmCriteria, List.map_cons, List.map_nil, List.sum_cons,
      List.sum_nil, hw1, hw2, hw3, hw4, hw5]
    norm_num
  refine ⟨hscore, ?_, ?_⟩
  · rw [hscore]
    norm_num
  · intro st variantId generation contentLen evaluatorType config
    exact ⟨rfl, fun o h => by simp [ScorerAgent.execute] at h⟩

/-- Claim C10: an update through the variant repository can change only
`is_selected`, `mutation_metadata` and `updated_at`; the identity, round,
parent, generation, content, content hash and creation time of every
stored row survive unchanged whatever the caller did to the passed
entity. -/
theorem update_preserves_frame (store store2 : VariantStore) (entity : Variant) (now : Nat)
    (h : PostgresVariantRepository.update store entity now = Except.ok store2) :
    store2.map frameFields = store.map frameFields := by
  unfold PostgresVariantRepository.update at h
  by_cases hc : store.any (fun r => r.id == entity.id) = true
  · rw [if_pos hc] at h
    cases h
    rw [List.map_map]
    apply List.map_congr_left
    intro r _
    by_cases hid : r.id = entity.id
    · simp [hid, frameFields]
    · simp [hid, frameFields]
  · rw [if_neg hc] at h
    cases h

/-- Witness for claim C10: the frame theorem applied to a one-row store
and an entity whose every field was modified by the caller. -/
theorem update_preserves_frame_witness :
    PostgresVariantRepository.update [frameStoredVariant] frameUpdatedEntity 42
      = Except.ok [frameExpectedVariant] ∧
    [frameExpectedVariant].map frameFields = [frameStoredVariant].map frameFields :=
  ⟨rfl, update_preserves_frame [frameStoredVariant] [frameExpectedVariant]
    frameUpdatedEntity 42 rfl⟩

/-- Claim C8, counterexample: an execution entered through
`run_with_tracing` that raises — as the variant generator execute does on
every call, failing on `context.run_id` — propagates the error with the
decision log untouched: only the failure counter moves, and no failure
decision row carrying the failure message is written. -/
theorem run_with_tracing_failure_writes_no_decision :
    (runWithTracing (VariantAgent.executeEffect "refactor" true) ⟨[], 0, 0⟩).1
      = Except.error "AttributeError: AgentContext object has no attribute run_id" ∧
    ((runWithTracing (VariantAgent.executeEffect "refactor" true) ⟨[], 0, 0⟩).2).decisions
      = [] ∧
    ((runWithTracing (VariantAgent.executeEffect "refactor" true) ⟨[], 0, 0⟩).2).errorCalls
      = 1 :=
  ⟨rfl, rfl, rfl⟩

/-- Claim C8, as amended: `run_with_tracing` itself writes no decision
rows — the decision log and the returned outcome after it are exactly
those of the wrapped `execute`, on the success path and on the failure
path alike (only the per-agent counters move).  The claimed
one-decision-per-successful-generation behaviour has no instance to
exhibit: the variant generator execute raises `AttributeError` on
`context.run_id` on every call, whatever the mutation type, so the state
(decision log included) passes through untouched beside the error. -/
theorem run_with_tracing_decision_log :
    (∀ (α : Type) (exec : AgentState → Except String α × AgentState) (s : AgentState),
      ((runWithTracing exec s).2).decisions = ((exec s).2).decisions ∧
      (runWithTracing exec s).1 = (exec s).1) ∧
    (∀ (mt : String) (s : AgentState),
      VariantAgent.executeEffect mt true s
        = (Except.error "AttributeError: AgentContext object has no attribute run_id", s)) := by
  constructor
  · intro α exec s
    unfold runWithTracing
    rcases hex : exec s with ⟨r, s2⟩
    cases r <;> simp
  · intro mt s
    rfl

/-- Claim C7: the claim says every `call_tool` invocation appends exactly
one access-log row with matching status, names, version and duration.
The code fails to log at all on real paths.  The invocation line checks
`hasattr(tool, __await__)`, which is false for every `async def` tool —
and the github, web and database servers register only those — so the
tool body never runs, the un-awaited coroutine object is captured as a
success output, and the `finally` log write dies serializing it into the
JSON `output_data` column: the call raises and zero rows are appended,
whatever the trace id.  (Independently, the `trace_id` column is NOT NULL,
so a call without a trace id loses its row the same way.) -/
theorem call_tool_async_tool_logs_nothing (registry : Registry)
    (serverName toolName params : String) (version : Option SemVer)
    (tid durationMs : Nat) (db : List ToolAccessLogRow)
    (srv : MCPServer) (tpair : String × MCPTool)
    (hsrv : MCPRegistry.get_server registry serverName version = some srv)
    (htool : List.find? (fun x => x.1 == toolName) srv.tools = some tpair)
    (hasync : tpair.2.isAsync = true) :
    MCPRegistry.call_tool registry serverName toolName params version (some tid) durationMs db
      = (Except.error "TypeError: Object of type coroutine is not JSON serializable", db) ∧
    ∀ (traceId : Option Nat),
      (MCPRegistry.call_tool registry serverName toolName params version traceId
        durationMs db).2 = db := by
  have hstep : MCPRegistry.invoke_step tpair.2 params = Except.ok ToolOutput.coroutine := by
    unfold MCPRegistry.invoke_step
    rw [if_pos hasync]
  have hcall : ∀ (traceId : Option Nat),
      MCPRegistry.call_tool registry serverName toolName params version traceId durationMs db
        = MCPRegistry.invoke_tool srv serverName toolName params traceId durationMs db := by
    intro traceId
    unfold MCPRegistry.call_tool
    rw [hsrv]
  have hinv : ∀ (traceId : Option Nat),
      MCPRegistry.invoke_tool srv serverName toolName params traceId durationMs db
        = MCPRegistry.run_tool srv tpair serverName toolName params traceId durationMs db := by
    intro traceId
    unfold MCPRegistry.invoke_tool
    rw [htool]
  have hrt_some : ∀ (t2 : Nat),
      MCPRegistry.run_tool srv tpair serverName toolName params (some t2) durationMs db
        = (Except.error "TypeError: Object of type coroutine is not JSON serializable", db) := by
    intro t2
    unfold MCPRegistry.run_tool
    rw [hstep]
    rfl
  have hrt_none :
      MCPRegistry.run_tool srv tpair serverName toolName params none durationMs db
        = (Except.error
            "IntegrityError: null value in column trace_id violates not-null constraint",
           db) := by
    unfold MCPRegistry.run_tool
    rw [hstep]
    rfl
  constructor
  · rw [hcall, hinv, hrt_some]
  · intro traceId
    rw [hcall, hinv]
    cases traceId
    · rw [hrt_none]
    · rw [hrt_some]

/-- Witness for claim C7: the zero-row theorem on the github server at
version 1.0.0, its async read_file tool, trace id 7, duration 5 and an
initially empty access log. -/
theorem call_tool_async_tool_logs_nothing_witness :
    MCPRegistry.get_server registryExample "github" none = some githubServerExample ∧
    List.find? (fun x => x.1 == "read_file") githubServerExample.tools
      = some ("read_file", githubReadFileTool) ∧
    githubReadFileTool.isAsync = true ∧
    (MCPRegistry.call_tool registryExample "github" "read_file" "path" none (some 7) 5 []
      = (Except.error "TypeError: Object of type coroutine is not JSON serializable", []) ∧
    ∀ (traceId : Option Nat),
      (MCPRegistry.call_tool registryExample "github" "read_file" "path" none traceId
        5 []).2 = []) :=
  ⟨rfl, rfl, rfl,
   call_tool_async_tool_logs_nothing registryExample "github" "read_file" "path" none 7 5 []
     githubServerExample ("read_file", githubReadFileTool) rfl rfl rfl⟩

/-- Helper: the diversity first pass never exceeds the pick quota. -/
theorem firstPass_length_le (selectCnt minLineages : Nat) :
    ∀ (ranked : List RankedVariant) (sel : List Nat) (par : List (Option Nat)),
      sel.length ≤ selectCnt →
      (firstPass selectCnt minLineages ranked sel par).1.length ≤ selectCnt := by
  intro ranked
  induction ranked with
  | nil =>
    intro sel par h
    simpa [firstPass] using h
  | cons c rest ih =>
    intro sel par h
    simp only [firstPass]
    by_cases h1 : selectCnt ≤ sel.length
    · rw [if_pos h1]
      exact h
    · rw [if_neg h1]
      by_cases h2 : c.parentId ∈ par
      · rw [if_pos h2]
        exact ih sel par h
      · rw [if_neg h2]
        have hlen : (sel ++ [c.variantId]).length ≤ selectCnt := by
          simp only [List.length_append, List.length_singleton]
          omega
        by_cases h3 : minLineages ≤ par.length + 1
        · rw [if_pos h3]
          exact hlen
        · rw [if_neg h3]
          exact ih _ _ hlen

/-- Helper: the diversity first pass only appends, and everything it
appends is the id of a ranked candidate. -/
theorem firstPass_suffix (selectCnt minLineages : Nat) :
    ∀ (ranked : List RankedVariant) (sel : List Nat) (par : List (Option Nat)),
      ∃ extra, (firstPass selectCnt minLineages ranked sel par).1 = sel ++ extra ∧
        ∀ x ∈ extra, ∃ c ∈ ranked, c.variantId = x := by
  intro ranked
  induction ranked with
  | nil =>
    intro sel par
    exact ⟨[], by simp [firstPass], by simp⟩
  | cons c rest ih =>
    intro sel par
    simp only [firstPass]
    by_cases h1 : selectCnt ≤ sel.length
    · rw [if_pos h1]
      exact ⟨[], by simp, by simp⟩
    · rw [if_neg h1]
      by_cases h2 : c.parentId ∈ par
      · rw [if_pos h2]
        obtain ⟨extra, heq, hex⟩ := ih sel par
        exact ⟨extra, heq, fun x hx => by
          obtain ⟨d, hd, hdx⟩ := hex x hx
          exact ⟨d, List.mem_cons_of_mem _ hd, hdx⟩⟩
      · rw [if_neg h2]
        by_cases h3 : minLineages ≤ par.length + 1
        · rw [if_pos h3]
          exact ⟨[c.variantId], rfl, by
            intro x hx
            simp only [List.mem_singleton] at hx
            exact ⟨c, List.mem_cons_self _ _, hx.symm⟩⟩
        · rw [if_neg h3]
          obtain ⟨extra, heq, hex⟩ := ih (sel ++ [c.variantId]) (par ++ [c.parentId])
          refine ⟨c.variantId :: extra, by simpa using heq, ?_⟩
          intro x hx
          rcases List.mem_cons.mp hx with rfl | hx2
          · exact ⟨c, List.mem_cons_self _ _, rfl⟩
          · obtain ⟨d, hd, hdx⟩ := hex x hx2
            exact ⟨d, List.mem_cons_of_mem _ hd, hdx⟩

/-- Helper: the diversity first pass keeps the selection duplicate-free
when the ranked ids are distinct. -/
theorem firstPass_nodup (selectCnt minLineages : Nat) :
    ∀ (ranked : List RankedVariant) (sel : List Nat) (par : List (Option Nat)),
      (ranked.map RankedVariant.variantId).Nodup →
      sel.Nodup →
      (∀ c ∈ ranked, c.variantId ∉ sel) →
      (firstPass selectCnt minLineages ranked sel par).1.Nodup := by
  intro ranked
  induction ranked with
  | nil =>
    intro sel par _ hsel _
    simpa [firstPass] using hsel
  | cons c rest ih =>
    intro sel par hnd hsel hfresh
    simp only [List.map_cons, List.nodup_cons] at hnd
    obtain ⟨hc, hnd2⟩ := hnd
    simp only [firstPass]
    by_cases h1 : selectCnt ≤ sel.length
    · rw [if_pos h1]
      exact hsel
    · rw [if_neg h1]
      by_cases h2 : c.parentId ∈ par
      · rw [if_pos h2]
        exact ih sel par hnd2 hsel (fun d hd => hfresh d (List.mem_cons_of_mem _ hd))
      · rw [if_neg h2]
        have hcfresh : c.variantId ∉ sel := hfresh c (List.mem_cons_self _ _)
        have hsel2 : (sel ++ [c.variantId]).Nodup := by
          rw [List.nodup_append]
          refine ⟨hsel, List.nodup_singleton _, ?_⟩
          intro a ha hb
          simp only [List.mem_singleton] at hb
          exact hcfresh (hb ▸ ha)
        have hfresh2 : ∀ d ∈ rest, d.variantId ∉ sel ++ [c.variantId] := by
          intro d hd hmem
          rcases List.mem_append.mp hmem with hmem2 | hmem2
          · exact hfresh d (List.mem_cons_of_mem _ hd) hmem2
          · simp only [List.mem_singleton] at hmem2
            exact hc (hmem2 ▸ List.mem_map_of_mem RankedVariant.variantId hd)
        by_cases h3 : minLineages ≤ par.length + 1
        · rw [if_pos h3]
          exact hsel2
        · rw [if_neg h3]
          exact ih _ _ hnd2 hsel2 hfresh2

/-- Helper: the quota-filling pass only appends, and everything it appends
is the id of a ranked candidate. -/
theorem secondPass_suffix (selectCnt : Nat) :
    ∀ (ranked : List RankedVariant) (sel : List Nat),
      ∃ extra, secondPass selectCnt ranked sel = sel ++ extra ∧
        ∀ x ∈ extra, ∃ c ∈ ranked, c.variantId = x := by
  intro ranked
  induction ranked with
  | nil =>
    intro sel
    exact ⟨[], by simp [secondPass], by simp⟩
  | cons c rest ih =>
    intro sel
    simp only [secondPass]
    by_cases h1 : selectCnt ≤ sel.length
    · rw [if_pos h1]
      exact ⟨[], by simp, by simp⟩
    · rw [if_neg h1]
      by_cases h2 : c.variantId ∈ sel
      · rw [if_pos h2]
        obtain ⟨extra, heq, hex⟩ := ih sel
        exact ⟨extra, heq, fun x hx => by
          obtain ⟨d, hd, hdx⟩ := hex x hx
          exact ⟨d, List.mem_cons_of_mem _ hd, hdx⟩⟩
      · rw [if_neg h2]
        obtain ⟨extra, heq, hex⟩ := ih (sel ++ [c.variantId])
        refine ⟨c.variantId :: extra, by simpa using heq, ?_⟩
        intro x hx
        rcases List.mem_cons.mp hx with rfl | hx2
        · exact ⟨c, List.mem_cons_self _ _, rfl⟩
        · obtain ⟨d, hd, hdx⟩ := hex x hx2
          exact ⟨d, List.mem_cons_of_mem _ hd, hdx⟩

/-- Helper: the quota-filling pass never exceeds the quota. -/
theorem secondPass_length_le (selectCnt : Nat) :
    ∀ (ranked : List RankedVariant) (sel : List Nat),
      sel.length ≤ selectCnt →
      (secondPass selectCnt ranked sel).length ≤ selectCnt := by
  intro ranked
  induction ranked with
  | nil =>
    intro sel h
    simpa [secondPass] using h
  | cons c rest ih =>
    intro sel h
    simp only [secondPass]
    by_cases h1 : selectCnt ≤ sel.length
    · rw [if_pos h1]
      exact h
    · rw [if_neg h1]
      by_cases h2 : c.variantId ∈ sel
      · rw [if_pos h2]
        exact ih sel h
      · rw [if_neg h2]
        refine ih _ ?_
        simp only [List.length_append, List.length_singleton]
        omega

/-- Helper: the quota-filling pass keeps the selection duplicate-free. -/
theorem secondPass_nodup (selectCnt : Nat) :
    ∀ (ranked : List RankedVariant) (sel : List Nat),
      sel.Nodup → (secondPass selectCnt ranked sel).Nodup := by
  intro ranked
  induction ranked with
  | nil =>
    intro sel h
    simpa [secondPass] using h
  | cons c rest ih =>
    intro sel h
    simp only [secondPass]
    by_cases h1 : selectCnt ≤ sel.length
    · rw [if_pos h1]
      exact h
    · rw [if_neg h1]
      by_cases h2 : c.variantId ∈ sel
      · rw [if_pos h2]
        exact ih sel h
      · rw [if_neg h2]
        refine ih _ ?_
        rw [List.nodup_append]
        refine ⟨h, List.nodup_singleton _, ?_⟩
        intro a ha hb
        simp only [List.mem_singleton] at hb
        exact h2 (hb ▸ ha)

/-- Helper: when the quota is not reached, the quota-filling pass has
taken in every ranked candidate id. -/
theorem secondPass_complete (selectCnt : Nat) :
    ∀ (ranked : List RankedVariant) (sel : List Nat),
      (secondPass selectCnt ranked sel).length < selectCnt →
      ∀ c ∈ ranked, c.variantId ∈ secondPass selectCnt ranked sel := by
  intro ranked
  induction ranked with
  | nil =>
    intro sel _ c hc
    exact absurd hc (List.not_mem_nil c)
  | cons c rest ih =>
    intro sel hlen d hd
    simp only [secondPass] at hlen ⊢
    by_cases h1 : selectCnt ≤ sel.length
    · rw [if_pos h1] at hlen ⊢
      exact absurd hlen (by omega)
    · rw [if_neg h1] at hlen ⊢
      by_cases h2 : c.variantId ∈ sel
      · rw [if_pos h2] at hlen ⊢
        rcases List.mem_cons.mp hd with rfl | hd2
        · obtain ⟨extra, heq, _⟩ := secondPass_suffix selectCnt rest sel
          rw [heq]
          exact List.mem_append_left _ h2
        · exact ih sel hlen d hd2
      · rw [if_neg h2] at hlen ⊢
        rcases List.mem_cons.mp hd with rfl | hd2
        · obtain ⟨extra, heq, _⟩ := secondPass_suffix selectCnt rest (sel ++ [d.variantId])
          rw [heq]
          exact List.mem_append_left _ (by simp)
        · exact ih _ hlen d hd2

/-- Helper: everything the diversity-guarded selection picks is a ranked
candidate id. -/
theorem select_with_diversity_subset (ranked : List RankedVariant)
    (selectCnt minLineages : Nat) :
    ∀ x ∈ PolicyAgent.select_with_diversity ranked selectCnt minLineages,
      x ∈ ranked.map RankedVariant.variantId := by
  intro x hx
  unfold PolicyAgent.select_with_diversity at hx
  obtain ⟨extra2, heq2, hex2⟩ := secondPass_suffix selectCnt ranked
    (firstPass selectCnt minLineages ranked [] []).1
  rw [heq2] at hx
  rcases List.mem_append.mp hx with h | h
  · obtain ⟨extra1, heq1, hex1⟩ := firstPass_suffix selectCnt minLineages ranked [] []
    rw [heq1] at h
    simp only [List.nil_append] at h
    obtain ⟨c, hc, rfl⟩ := hex1 x h
    exact List.mem_map_of_mem _ hc
  · obtain ⟨c, hc, rfl⟩ := hex2 x h
    exact List.mem_map_of_mem _ hc

/-- Helper: the diversity-guarded selection is duplicate-free when the
ranked ids are distinct. -/
theorem select_with_diversity_nodup (ranked : List RankedVariant)
    (selectCnt minLineages : Nat)
    (hnd : (ranked.map RankedVariant.variantId).Nodup) :
    (PolicyAgent.select_with_diversity ranked selectCnt minLineages).Nodup := by
  unfold PolicyAgent.select_with_diversity
  exact secondPass_nodup selectCnt ranked _
    (firstPass_nodup selectCnt minLineages ranked [] [] hnd List.nodup_nil (by simp))

/-- Helper: the diversity-guarded selection picks exactly the quota when
enough distinct candidates exist, and all of them otherwise. -/
theorem select_with_diversity_length (ranked : List RankedVariant)
    (selectCnt minLineages : Nat)
    (hnd : (ranked.map RankedVariant.variantId).Nodup) :
    (PolicyAgent.select_with_diversity ranked selectCnt minLineages).length
      = min selectCnt ranked.length := by
  have hfs_len : (firstPass selectCnt minLineages ranked [] []).1.length ≤ selectCnt :=
    firstPass_length_le selectCnt minLineages ranked [] [] (by simp)
  have hres_nodup := select_with_diversity_nodup ranked selectCnt minLineages hnd
  have hres_sub := select_with_diversity_subset ranked selectCnt minLineages
  have hres_le_k :
      (PolicyAgent.select_with_diversity ranked selectCnt minLineages).length ≤ selectCnt := by
    unfold PolicyAgent.select_with_diversity
    exact secondPass_length_le selectCnt ranked _ hfs_len
  have hres_le_n :
      (PolicyAgent.select_with_diversity ranked selectCnt minLineages).length
        ≤ ranked.length := by
    have hsub : PolicyAgent.select_with_diversity ranked selectCnt minLineages
        ⊆ ranked.map RankedVariant.variantId := hres_sub
    have h1 := (hres_nodup.subperm hsub).length_le
    simpa using h1
  have hres_ge : min selectCnt ranked.length
      ≤ (PolicyAgent.select_with_diversity ranked selectCnt minLineages).length := by
    by_contra hlt
    push_neg at hlt
    have hlt_k :
        (PolicyAgent.select_with_diversity ranked selectCnt minLineages).length
          < selectCnt := lt_of_lt_of_le hlt (min_le_left _ _)
    have hall : ∀ c ∈ ranked, c.variantId
        ∈ PolicyAgent.select_with_diversity ranked selectCnt minLineages := by
      intro c hc
      unfold PolicyAgent.select_with_diversity at hlt_k ⊢
      exact secondPass_complete selectCnt ranked _ hlt_k c hc
    have hsub2 : ranked.map RankedVariant.variantId
        ⊆ PolicyAgent.select_with_diversity ranked selectCnt minLineages := by
      intro x hx
      obtain ⟨c, hc, rfl⟩ := List.mem_map.mp hx
      exact hall c hc
    have hn_le := (hnd.subperm hsub2).length_le
    simp only [List.length_map] at hn_le
    have hlt_n :
        (PolicyAgent.select_with_diversity ranked selectCnt minLineages).length
          < ranked.length := lt_of_lt_of_le hlt (min_le_right _ _)
    omega
  omega

/-- Helper: the ids of the ranked list are a permutation of the ids of the
round variants (ranking is a sort of one entry per variant). -/
theorem rank_variants_ids_perm (variants : VariantStore) (evals : List EvalRow)
    (cfg : PolicyConfig) :
    ((PolicyAgent.rank_variants variants evals cfg).map RankedVariant.variantId).Perm
      (variants.map Variant.id) := by
  unfold PolicyAgent.rank_variants
  have h1 := (List.perm_insertionSort rankedGE (variants.map (mkRanked variants evals
    (cfg.objectiveWeights.getD
      (PolicyAgent.build_objective_weights cfg.selectionPressure))))).map
    RankedVariant.variantId
  rw [List.map_map] at h1
  have h3 : (RankedVariant.variantId ∘ mkRanked variants evals
      (cfg.objectiveWeights.getD
        (PolicyAgent.build_objective_weights cfg.selectionPressure))) = Variant.id := by
    funext v
    rfl
  rw [h3] at h1
  exact h1

/-- Helper: filtering the marked store down to the selected rows is the
same as marking the rows whose id was picked. -/
theorem markSelected_filter (ids : List Nat) (now : Nat) :
    ∀ (variants : VariantStore), (∀ v ∈ variants, v.isSelected = false) →
      (markSelected ids now variants).filter (fun v => v.isSelected)
        = (variants.filter (fun v => decide (v.id ∈ ids))).map
            (fun v => { v with isSelected := true, updatedAt := now }) := by
  intro variants
  induction variants with
  | nil =>
    intro _
    simp [markSelected]
  | cons v rest ih =>
    intro hunsel
    have hv : v.isSelected = false := hunsel v (List.mem_cons_self _ _)
    have hrest := ih (fun u hu => hunsel u (List.mem_cons_of_mem _ hu))
    simp only [markSelected, List.map_cons, List.filter_cons] at hrest ⊢
    by_cases hmem : v.id ∈ ids
    · simp only [if_pos hmem]
      simp [hrest, hmem]
    · simp only [if_neg hmem]
      simp [hrest, hmem, hv]

/-- Helper: marking a duplicate-free list of known ids marks exactly that
many rows. -/
theorem markSelected_count (variants : VariantStore) (ids : List Nat) (now : Nat)
    (hvar : (variants.map Variant.id).Nodup) (hid : ids.Nodup)
    (hsub : ∀ x ∈ ids, x ∈ variants.map Variant.id)
    (hunsel : ∀ v ∈ variants, v.isSelected = false) :
    ((markSelected ids now variants).filter (fun v => v.isSelected)).length = ids.length := by
  rw [markSelected_filter ids now variants hunsel, List.length_map]
  have hA_nodup : ((variants.filter (fun v => decide (v.id ∈ ids))).map Variant.id).Nodup := by
    have hsl : List.Sublist ((variants.filter (fun v => decide (v.id ∈ ids))).map Variant.id)
        (variants.map Variant.id) := (List.filter_sublist _).map Variant.id
    exact hvar.sublist hsl
  have hA_sub : (variants.filter (fun v => decide (v.id ∈ ids))).map Variant.id ⊆ ids := by
    intro x hx
    obtain ⟨v, hv, rfl⟩ := List.mem_map.mp hx
    have := (List.mem_filter.mp hv).2
    simpa using this
  have hids_sub : ids ⊆ (variants.filter (fun v => decide (v.id ∈ ids))).map Variant.id := by
    intro x hx
    obtain ⟨v, hv, rfl⟩ := List.mem_map.mp (hsub x hx)
    refine List.mem_map.mpr ⟨v, ?_, rfl⟩
    exact List.mem_filter.mpr ⟨hv, by simpa using hx⟩
  have h1 := (hA_nodup.subperm hA_sub).length_le
  have h2 := (hid.subperm hids_sub).length_le
  simp only [List.length_map] at h1 h2
  omega

/-- The selection-and-marking stage of `apply_policy` (policy_maker.py,
lines 480-500), analysed in isolation — it is dead code, since every
`apply_policy` call raises while loading its inputs before reaching it:
for n distinct, initially unselected variants and a pick quota
`selection_count`, the stage would mark exactly `selection_count` variants
selected when n is at least the quota and all n of them otherwise,
whatever the diversity guard `min_lineages` asks for. -/
theorem selection_stage_selects_quota (variants : VariantStore) (evals : List EvalRow)
    (cfg : PolicyConfig) (now : Nat)
    (hids : (variants.map Variant.id).Nodup)
    (hunsel : ∀ v ∈ variants, v.isSelected = false) :
    ((PolicyAgent.apply_policy_selection variants evals cfg now).2.filter
        (fun v => v.isSelected)).length = min cfg.selectionCount variants.length ∧
    (PolicyAgent.apply_policy_selection variants evals cfg now).1.length
      = min cfg.selectionCount variants.length := by
  have hperm := rank_variants_ids_perm variants evals cfg
  have hrank_nodup :
      ((PolicyAgent.rank_variants variants evals cfg).map RankedVariant.variantId).Nodup :=
    hperm.nodup_iff.mpr hids
  have hrank_len : (PolicyAgent.rank_variants variants evals cfg).length
      = variants.length := by
    have := hperm.length_eq
    simpa using this
  have hids_len : (PolicyAgent.apply_policy_ids variants evals cfg).length
      = min cfg.selectionCount variants.length := by
    unfold PolicyAgent.apply_policy_ids
    rw [select_with_diversity_length _ _ _ hrank_nodup, hrank_len]
    omega
  have hids_nodup : (PolicyAgent.apply_policy_ids variants evals cfg).Nodup := by
    unfold PolicyAgent.apply_policy_ids
    exact select_with_diversity_nodup _ _ _ hrank_nodup
  have hids_sub : ∀ x ∈ PolicyAgent.apply_policy_ids variants evals cfg,
      x ∈ variants.map Variant.id := by
    intro x hx
    unfold PolicyAgent.apply_policy_ids at hx
    exact hperm.mem_iff.mp (select_with_diversity_subset _ _ _ x hx)
  constructor
  · show ((markSelected (PolicyAgent.apply_policy_ids variants evals cfg) now
      variants).filter (fun v => v.isSelected)).length = _
    rw [markSelected_count variants _ now hids hids_nodup hids_sub hunsel]
    exact hids_len
  · exact hids_len

/-- The quota lemma for the dead selection stage, instantiated on a
concrete three-variant round with quota two and a five-lineage diversity
guard. -/
theorem selection_stage_selects_quota_example :
    ((policyVariantsExample.map Variant.id).Nodup) ∧
    (∀ v ∈ policyVariantsExample, v.isSelected = false) ∧
    ((PolicyAgent.apply_policy_selection policyVariantsExample [] policyCfgExample 9).2.filter
        (fun v => v.isSelected)).length
      = min policyCfgExample.selectionCount policyVariantsExample.length ∧
    (PolicyAgent.apply_policy_selection policyVariantsExample [] policyCfgExample 9).1.length
      = min policyCfgExample.selectionCount policyVariantsExample.length :=
  ⟨by decide, by decide,
   (selection_stage_selects_quota policyVariantsExample [] policyCfgExample 9
     (by decide) (by decide)).1,
   (selection_stage_selects_quota policyVariantsExample [] policyCfgExample 9
     (by decide) (by decide)).2⟩

/-- Claim C2: the claim says `apply_policy` marks `selection_count` of the
round variants selected (all of them when fewer exist).  The code never
reaches its marking stage: after loading the policy it calls the
`get_round_variants` tool, which invokes the nonexistent repository method
`get_by_round_id` (domain_query.py, line 250 — the repository only has
`get_by_round`) and raises `AttributeError`; had that call returned, the
next one passes no `round_id` to `get_round_evaluations`, a required
positional argument, raising `TypeError`.  So every invocation with a
round in context propagates an exception and the variant store comes back
with not a single selection mark written. -/
theorem apply_policy_crashes_before_marking :
    (∀ (policies : List (Nat × PolicyConfig)) (policyId : Nat)
        (store : VariantStore) (now : Nat),
      (PolicyAgent.apply_policy policies policyId true store now).2 = store ∧
      ∃ e, (PolicyAgent.apply_policy policies policyId true store now).1
        = Except.error e) ∧
    DomainQueryTool.get_round_variants true
      = Except.error
        "AttributeError: PostgresVariantRepository object has no attribute get_by_round_id" := by
  refine ⟨?_, rfl⟩
  intro policies policyId store now
  unfold PolicyAgent.apply_policy
  rcases hfind : policies.find? (fun p => p.1 == policyId) with _ | p <;>
    simp [hfind, DomainQueryTool.get_round_variants]
